import Mathlib

/-!
# FreshMart cart panel (`src/components/Cart.jsx`)

A shallow embedding of the `Cart` component: the item list and the discount
calculator are props, the four `useState` cells form `CartState`, and the host
effects the handlers perform (toast notifications, `localStorage` writes, page
reloads) are recorded in `World`.  JavaScript numbers are IEEE-754 double
precision values (`JSNumber`): every sum and product is rounded to nearest, ties to
even, with signed zeros, infinities and NaN.
-/

namespace Cart

/-! ## Data model -/

/-- Calendar date chosen in the date picker (the part of a JS `Date` that
`toLocaleDateString` shows). -/
structure Date where
  year : Nat
  month : Nat
  day : Nat
deriving DecidableEq, Repr

/-- Host rendering `Date.prototype.toLocaleDateString()` for the `en-US` locale,
month/day/year. -/
def Date.toLocaleDateString (d : Date) : String :=
  toString d.month ++ "/" ++ toString d.day ++ "/" ++ toString d.year

/-! ## JavaScript numbers -/

/-- A JavaScript `Number` (IEEE-754 binary64). `finite neg m e` is the value
`(-1)^neg * m * 2^e`; several triples may denote the same double, the operations
below depend on the value only. `finite true 0 0` is the negative zero. -/
inductive JSNumber where
  | finite (neg : Bool) (m : Nat) (e : Int)
  | infinity (neg : Bool)
  | nan
deriving DecidableEq, Repr

/-- Worker of `bitLength`, recursive on the fuel. -/
def bitLengthAux : Nat → Nat → Nat
  | 0, _ => 0
  | fuel + 1, n => if n = 0 then 0 else bitLengthAux fuel (n / 2) + 1

/-- Number of binary digits of `n` (`0` for `0`). -/
def bitLength (n : Nat) : Nat := bitLengthAux n n

/-- Round the exact dyadic value `(-1)^neg * m * 2^e` to the nearest double, ties to
even: the mantissa keeps 53 bits, the exponent of the last place is at least `-1074`
(subnormal range), and a rounded magnitude of `2^1024` or more is an infinity. -/
def roundDouble (neg : Bool) (m : Nat) (e : Int) : JSNumber :=
  if m = 0 then .finite neg 0 0
  else
    let shift : Nat := max (bitLength m - 53) (-1074 - e).toNat
    let q := m / 2 ^ shift
    let r := m % 2 ^ shift
    let q1 := if 2 * r > 2 ^ shift ∨ (2 * r = 2 ^ shift ∧ q % 2 = 1) then q + 1 else q
    if q1 = 0 then .finite neg 0 0
    else if (bitLength q1 : Int) + (e + shift) > 1024 then .infinity neg
    else .finite neg q1 (e + shift)

/-- The JavaScript `+` on numbers. -/
def JSNumber.add : JSNumber → JSNumber → JSNumber
  | .nan, _ => .nan
  | _, .nan => .nan
  | .infinity s, .infinity t => if s = t then .infinity s else .nan
  | .infinity s, .finite _ _ _ => .infinity s
  | .finite _ _ _, .infinity t => .infinity t
  | .finite s1 m1 e1, .finite s2 m2 e2 =>
    let e := min e1 e2
    let a1 : Int := (if s1 then -1 else 1) * ((m1 * 2 ^ (e1 - e).toNat : Nat) : Int)
    let a2 : Int := (if s2 then -1 else 1) * ((m2 * 2 ^ (e2 - e).toNat : Nat) : Int)
    if a1 + a2 = 0 then .finite (s1 && s2) 0 0
    else roundDouble (decide (a1 + a2 < 0)) (a1 + a2).natAbs e

/-- The JavaScript `*` on numbers. -/
def JSNumber.mul : JSNumber → JSNumber → JSNumber
  | .nan, _ => .nan
  | _, .nan => .nan
  | .infinity s, .infinity t => .infinity (xor s t)
  | .infinity s, .finite t m _ => if m = 0 then .nan else .infinity (xor s t)
  | .finite s m _, .infinity t => if m = 0 then .nan else .infinity (xor s t)
  | .finite s1 m1 e1, .finite s2 m2 e2 => roundDouble (xor s1 s2) (m1 * m2) (e1 + e2)

/-- The number literal `0`. -/
def JSNumber.zero : JSNumber := .finite false 0 0

/-- The double a non-negative integer literal denotes. -/
def JSNumber.ofNat (n : Nat) : JSNumber := roundDouble false n 0

/-- Exact value of a finite number; `none` for the infinities and NaN. -/
def JSNumber.toRat? : JSNumber → Option ℚ
  | .finite neg m e => some ((if neg then -1 else 1) * ((m : ℚ) * 2 ^ e))
  | .infinity _ => none
  | .nan => none

/-- Cart line item as read by the component: `id`, `name`, `image`, `price`,
`discount`, `quantity`, `type`. -/
structure Item where
  id : Nat
  name : String
  image : String
  price : JSNumber
  discount : JSNumber
  quantity : JSNumber
  type : String
deriving DecidableEq

/-- Severity of a `react-toastify` notification. -/
inductive ToastKind where
  | warning
  | error
deriving DecidableEq, Repr

/-- One emitted notification: `toast.warning(text, options)` or `toast.error(text)`. -/
structure Toast where
  kind : ToastKind
  text : String
  position : Option String
  autoClose : Option Nat
deriving DecidableEq, Repr

/-- The four `useState` cells of the component. -/
structure CartState where
  deliveryDate : Option Date
  isPreOrder : Bool
  isModalOpen : Bool
  checkoutMessage : String
deriving DecidableEq, Repr

/-- Browser `localStorage`: key/value entries, at most one per key. -/
abbrev Storage := List (String × String)

/-- Lookup `localStorage.getItem(key)`. -/
def Storage.getItem (s : Storage) (key : String) : Option String :=
  (s.find? (fun kv => kv.1 == key)).map (fun kv => kv.2)

/-- Write `localStorage.setItem(key, value)`: the entry under `key` is overwritten. -/
def Storage.setItem (s : Storage) (key value : String) : Storage :=
  (key, value) :: s.filter (fun kv => kv.1 != key)

/-- Component state together with the observable host effects. `toasts` is the
log of notifications emitted so far (oldest first), `writes` the log of
`localStorage.setItem` calls, `reloads` the number of `window.location.reload()`
calls. -/
structure World where
  ui : CartState
  toasts : List Toast
  storage : Storage
  writes : List (String × String)
  reloads : Nat
deriving DecidableEq

/-- Initial values of the `useState` cells: no date, pre-order off, modal closed,
empty message. -/
def CartState.initial : CartState :=
  { deliveryDate := none, isPreOrder := false, isModalOpen := false, checkoutMessage := "" }

/-- Freshly mounted component over a given `localStorage` content. -/
def World.initial (storage : Storage) : World :=
  { ui := CartState.initial, toasts := [], storage := storage, writes := [], reloads := 0 }

/-! ## Derived values computed on each render -/

/-- Source: `items.some(item => item.type === 'natural')`. -/
def hasNaturalProducts (items : List Item) : Bool :=
  items.any (fun item => item.type == "natural")

/-- Source: `items.some(item => item.type === 'packaged')`. -/
def hasPackagedProducts (items : List Item) : Bool :=
  items.any (fun item => item.type == "packaged")

/-- Source: `items.reduce((sum, item) => { const finalPrice =
calculateDiscount(item.price, item.discount); return sum + finalPrice * item.quantity; }, 0)`. -/
def total (items : List Item) (calculateDiscount : JSNumber → JSNumber → JSNumber) : JSNumber :=
  items.foldl
    (fun sum item =>
      let finalPrice := calculateDiscount item.price item.discount
      sum.add (finalPrice.mul item.quantity))
    JSNumber.zero

/-- Specification side: the exact value of `calculateDiscount(item.price, item.discount)
* item.quantity`; `none` when a factor is not finite. -/
def exactTerm (item : Item) (calculateDiscount : JSNumber → JSNumber → JSNumber) : Option ℚ :=
  match (calculateDiscount item.price item.discount).toRat?, item.quantity.toRat? with
  | some p, some q => some (p * q)
  | _, _ => none

/-- Specification side: the sum over all items of `exactTerm` in exact arithmetic. -/
def exactTotal : List Item → (JSNumber → JSNumber → JSNumber) → Option ℚ
  | [], _ => some 0
  | item :: rest, calculateDiscount =>
    match exactTerm item calculateDiscount, exactTotal rest calculateDiscount with
    | some t, some s => some (t + s)
    | _, _ => none

/-- Category label rendered for an item:
`item.type === 'natural' ? '🌱 Natural Product' : '📦 Packaged'`. -/
def itemTypeLabel (item : Item) : String :=
  if item.type == "natural" then "🌱 Natural Product" else "📦 Packaged"

/-- Serialisation `JSON.stringify` of an array whose elements are already serialised. -/
def jsonStringifyArray (elems : List String) : String :=
  "[" ++ ",".intercalate elems ++ "]"

/-! ## Host effects -/

/-- Effect `toast.warning(text, { position, autoClose })`. -/
def toastWarning (w : World) (text : String) (position : String) (autoClose : Nat) : World :=
  { w with toasts := w.toasts ++
      [{ kind := .warning, text := text, position := some position, autoClose := some autoClose }] }

/-- Effect `toast.error(text)`. -/
def toastError (w : World) (text : String) : World :=
  { w with toasts := w.toasts ++
      [{ kind := .error, text := text, position := none, autoClose := none }] }

/-- Effect `localStorage.setItem(key, value)`. -/
def localStorageSetItem (w : World) (key value : String) : World :=
  { w with storage := w.storage.setItem key value, writes := w.writes ++ [(key, value)] }

/-! ## Notification texts -/

/-- Text of the warning shown when pre-order is refused. -/
def preOrderWarningText : String :=
  "Pre-order is only available for natural products (meat, seafood, eggs, honey). Please remove packaged items to enable pre-order."

/-- Text of the error shown when a pre-order checkout has no date. -/
def missingDateText : String :=
  "Please select a delivery date for pre-order"

/-- Text of the error shown when a pre-order checkout meets a packaged item. -/
def packagedErrorText : String :=
  "Cannot pre-order packaged products. Please remove them from cart."

/-- Confirmation text of a pre-order. The source writes it between single quotes,
so the `$\x7b...\x7d` placeholder is part of the text and is not evaluated. -/
def preOrderMessageText : String :=
  "Thank you for your pre-order! Your items will be delivered on $\x7bdeliveryDate.toLocaleDateString()\x7d"

/-- Confirmation text of an ordinary order. -/
def orderMessageText : String :=
  "Thank you for your order!"

/-! ## Event handlers -/

/-- Source: `handlePreOrderToggle(checked)`. -/
def handlePreOrderToggle (items : List Item) (checked : Bool) (w : World) : World :=
  if checked && hasPackagedProducts items then
    toastWarning w preOrderWarningText "top-center" 5000
  else
    { w with ui := { w.ui with isPreOrder := checked } }

/-- Source: the date picker callback `date => setDeliveryDate(date)`; the picker
passes `null` when the field is cleared. -/
def setDeliveryDate (date : Option Date) (w : World) : World :=
  { w with ui := { w.ui with deliveryDate := date } }

/-- Source: `handleCheckout()`. The two guards sit inside `if (isPreOrder)`;
`!deliveryDate` holds exactly for `null`. -/
def handleCheckout (items : List Item) (w : World) : World :=
  let message := if w.ui.isPreOrder then preOrderMessageText else orderMessageText
  let w1 : World := { w with ui := { w.ui with checkoutMessage := message } }
  let w2 : World := { w1 with ui := { w1.ui with isModalOpen := true } }
  let proceed : World := localStorageSetItem w2 "cart" (jsonStringifyArray [])
  if w.ui.isPreOrder then
    if w.ui.deliveryDate.isNone then
      toastError w missingDateText
    else if hasPackagedProducts items then
      toastError w packagedErrorText
    else
      proceed
  else
    proceed

/-- Source: `closeModal()`: `setIsModalOpen(false)` and `window.location.reload()`. -/
def closeModal (w : World) : World :=
  { w with ui := { w.ui with isModalOpen := false }, reloads := w.reloads + 1 }

/-- The page reload itself: the component is mounted afresh, so the `useState`
cells are back at their initial values; `localStorage` survives. -/
def remount (w : World) : World :=
  { w with ui := CartState.initial }

/-! ## User events and reachable states -/

/-- User interactions with the panel. -/
inductive Event where
  | toggle (checked : Bool)
  | selectDate (date : Option Date)
  | checkout
  | close
  | reloaded
deriving DecidableEq

/-- Effect of one user event while the item list is `items`. -/
def step (items : List Item) (w : World) : Event → World
  | .toggle checked => handlePreOrderToggle items checked w
  | .selectDate date => setDeliveryDate date w
  | .checkout => handleCheckout items w
  | .close => closeModal w
  | .reloaded => remount w

/-- Run a sequence of user events over a fixed item list. -/
def run (items : List Item) (w : World) (events : List Event) : World :=
  events.foldl (step items) w

/-- States reachable from a fresh mount when the item list never changes. -/
inductive Reachable (items : List Item) : World → Prop where
  | init (storage : Storage) : Reachable items (World.initial storage)
  | step {w : World} (e : Event) : Reachable items w → Reachable items (step items w e)

/-- States reachable from a fresh mount when the parent may also replace the
item list; `allowed ui items` says which replacement lists the parent may supply
while the component state is `ui`. The first index is the current item list. -/
inductive ReachableWith (allowed : CartState → List Item → Prop) : List Item → World → Prop where
  | init (items : List Item) (storage : Storage) :
      ReachableWith allowed items (World.initial storage)
  | step {items : List Item} {w : World} (e : Event) :
      ReachableWith allowed items w → ReachableWith allowed items (step items w e)
  | props {items : List Item} {w : World} (items' : List Item) :
      ReachableWith allowed items w → allowed w.ui items' → ReachableWith allowed items' w

/-! ## Notifications and outcomes named by the specification -/

/-- The notification `handlePreOrderToggle` emits when it refuses. -/
def preOrderWarning : Toast :=
  { kind := .warning, text := preOrderWarningText, position := some "top-center",
    autoClose := some 5000 }

/-- The notification `toast.error(text)` produces. -/
def errorToast (text : String) : Toast :=
  { kind := .error, text := text, position := none, autoClose := none }

/-- A toggle request is rejected: the warning is emitted and the component state
is left as it was. -/
def ToggleRejected (items : List Item) (checked : Bool) (w : World) : Prop :=
  (handlePreOrderToggle items checked w).toasts = w.toasts ++ [preOrderWarning] ∧
    (handlePreOrderToggle items checked w).ui = w.ui

instance (items : List Item) (checked : Bool) (w : World) :
    Decidable (ToggleRejected items checked w) := by
  unfold ToggleRejected; infer_instance

/-! ## Sample data -/

/-- A natural product. -/
def sampleHoney : Item :=
  { id := 1, name := "Honey", image := "honey.jpg", price := JSNumber.ofNat 250,
    discount := JSNumber.ofNat 10, quantity := JSNumber.ofNat 2, type := "natural" }

/-- A packaged product. -/
def sampleChips : Item :=
  { id := 2, name := "Chips", image := "chips.jpg", price := JSNumber.ofNat 20,
    discount := JSNumber.ofNat 0, quantity := JSNumber.ofNat 3, type := "packaged" }

/-- A product whose category tag is neither of the two known ones. -/
def sampleFrozen : Item :=
  { id := 3, name := "Peas", image := "peas.jpg", price := JSNumber.ofNat 90,
    discount := JSNumber.ofNat 5, quantity := JSNumber.ofNat 1, type := "frozen" }

/-- A product priced at `2^53 = 9007199254740992`. -/
def sampleBulk : Item :=
  { id := 4, name := "Bulk", image := "bulk.jpg", price := JSNumber.ofNat 9007199254740992,
    discount := JSNumber.ofNat 0, quantity := JSNumber.ofNat 1, type := "natural" }

/-- A product priced at `1`. -/
def sampleUnit : Item :=
  { id := 5, name := "Unit", image := "unit.jpg", price := JSNumber.ofNat 1,
    discount := JSNumber.ofNat 0, quantity := JSNumber.ofNat 1, type := "natural" }

/-- A product whose price is the double written `0.1`. -/
def sampleTenth : Item :=
  { id := 6, name := "Tenth", image := "tenth.jpg",
    price := .finite false 3602879701896397 (-55),
    discount := JSNumber.ofNat 0, quantity := JSNumber.ofNat 1, type := "natural" }

/-- A product whose price is the double written `0.2`. -/
def sampleFifth : Item :=
  { id := 7, name := "Fifth", image := "fifth.jpg",
    price := .finite false 3602879701896397 (-54),
    discount := JSNumber.ofNat 0, quantity := JSNumber.ofNat 1, type := "natural" }

/-- A discount calculator that applies no discount. -/
def noDiscount : JSNumber → JSNumber → JSNumber :=
  fun price _ => price

/-- Sample delivery date, 15 January 2025. -/
def sampleDateA : Date := { year := 2025, month := 1, day := 15 }

/-- Sample delivery date, 20 February 2025. -/
def sampleDateB : Date := { year := 2025, month := 2, day := 20 }

/-- A component state with pre-order switched on and the given date selection,
over an empty `localStorage`. -/
def samplePreOrder (date : Option Date) : World :=
  { World.initial [] with
    ui := { CartState.initial with isPreOrder := true, deliveryDate := date } }

/-! ## Policies for parent-supplied item lists -/

/-- The parent may supply any list at any time. -/
def anyList : CartState → List Item → Prop :=
  fun _ _ => True

/-- The parent never supplies a list holding a packaged item while the pre-order
flag is on. -/
def keepsEligibility : CartState → List Item → Prop :=
  fun ui items => ui.isPreOrder = true → hasPackagedProducts items = false

/-- The label the component renders for every item that is not `natural`. -/
def packagedLabel : String := "📦 Packaged"

/-! ## Basic facts about the host model -/

theorem Storage.getItem_setItem (s : Storage) (key value : String) :
    (s.setItem key value).getItem key = some value := by
  simp [Storage.getItem, Storage.setItem]

theorem jsonStringifyArray_nil : jsonStringifyArray [] = "[]" := by
  decide

/-! ## Exact cases of double arithmetic -/

theorem bitLengthAux_le (fuel : Nat) : ∀ (n k : Nat), n < 2 ^ k → bitLengthAux fuel n ≤ k := by
  induction fuel with
  | zero => intro n k _; simp [bitLengthAux]
  | succ fuel ih =>
    intro n k h
    unfold bitLengthAux
    by_cases hn : n = 0
    · simp [hn]
    · simp only [hn, if_false]
      cases k with
      | zero => simp at h; exact absurd h hn
      | succ k =>
        have : n / 2 < 2 ^ k := by
          rw [Nat.div_lt_iff_lt_mul (by norm_num)]
          simpa [pow_succ] using h
        have := ih (n / 2) k this
        omega

theorem bitLength_le {n k : Nat} (h : n < 2 ^ k) : bitLength n ≤ k :=
  bitLengthAux_le n n k h

theorem roundDouble_of_dvd (neg : Bool) (m : Nat) (e : Int) (hm : m ≠ 0)
    (hd : 2 ^ (max (bitLength m - 53) (-1074 - e).toNat) ∣ m)
    (hov : (bitLength (m / 2 ^ (max (bitLength m - 53) (-1074 - e).toNat)) : Int)
      + (e + (max (bitLength m - 53) (-1074 - e).toNat : Nat)) ≤ 1024) :
    roundDouble neg m e
      = .finite neg (m / 2 ^ (max (bitLength m - 53) (-1074 - e).toNat))
          (e + (max (bitLength m - 53) (-1074 - e).toNat : Nat)) := by
  unfold roundDouble
  simp only [hm, if_false]
  generalize max (bitLength m - 53) (-1074 - e).toNat = s at *
  have hr : m % 2 ^ s = 0 := Nat.mod_eq_zero_of_dvd hd
  have hq : m / 2 ^ s ≠ 0 := by
    intro h0
    have := Nat.div_mul_cancel hd
    rw [h0] at this
    simp at this
    exact hm this.symm
  have hpow : ¬ (0 = 2 ^ s) := by
    intro h; have := pow_pos (show 0 < 2 by norm_num) s
    omega
  simp only [hr, Nat.mul_zero]
  simp [hq, hpow, not_lt.2 hov]

theorem finite_div_toRat (neg : Bool) (m s : Nat) (e : Int) (hd : 2 ^ s ∣ m) :
    (JSNumber.finite neg (m / 2 ^ s) (e + (s : Nat))).toRat? = (JSNumber.finite neg m e).toRat? := by
  obtain ⟨c, rfl⟩ := hd
  have h2 : (2 : ℚ) ≠ 0 := by norm_num
  simp only [JSNumber.toRat?, Option.some.injEq]
  rw [Nat.mul_div_cancel_left c (pow_pos (by norm_num) s)]
  rw [zpow_add₀ h2, zpow_natCast]
  push_cast
  ring

theorem roundDouble_exact (neg : Bool) (m : Nat) (e : Int) (n : Nat)
    (h : (m : ℚ) * 2 ^ e = n) (hn : n < 2 ^ 53) :
    (roundDouble neg m e).toRat? = (JSNumber.finite neg m e).toRat? := by
  by_cases hm : m = 0
  · subst hm
    simp [roundDouble, JSNumber.toRat?]
  have h2 : (2 : ℚ) ≠ 0 := by norm_num
  -- the mantissa is a multiple of 2 ^ (-e), below 2 ^ (53 - e), and e is small
  have hfac : 2 ^ (-e).toNat ∣ m ∧ m < 2 ^ (53 + (-e).toNat) ∧
      e + ((-e).toNat : Nat) ≤ 53 := by
    rcases Int.eq_nat_or_neg e with ⟨k, rfl | rfl⟩
    · have hk : (-(k : Int)).toNat = 0 := by simp
      rw [hk]
      have hmn : m * 2 ^ k = n := by
        have : ((m * 2 ^ k : Nat) : ℚ) = (n : ℚ) := by
          push_cast; rw [← h, zpow_natCast]
        exact_mod_cast this
      have hle : m ≤ n := by
        calc m = m * 1 := by ring
          _ ≤ m * 2 ^ k := Nat.mul_le_mul_left m (Nat.one_le_two_pow)
          _ = n := hmn
      have hkk : k < 53 := by
        by_contra hge
        have h1 : 2 ^ 53 ≤ 2 ^ k := Nat.pow_le_pow_right (by norm_num) (by omega)
        have h3 : 2 ^ k ≤ m * 2 ^ k := Nat.le_mul_of_pos_left _ (Nat.pos_of_ne_zero hm)
        omega
      refine ⟨by simp, by simpa using lt_of_le_of_lt hle hn, ?_⟩
      simp only [CharP.cast_eq_zero, add_zero]
      omega
    · have hk : (-(-(k : Int))).toNat = k := by simp
      rw [hk]
      have hmn : m = n * 2 ^ k := by
        have : (m : ℚ) = ((n * 2 ^ k : Nat) : ℚ) := by
          push_cast
          rw [← h, zpow_neg, zpow_natCast]
          field_simp
        exact_mod_cast this
      refine ⟨⟨n, by rw [hmn]; ring⟩, ?_, by omega⟩
      rw [hmn, pow_add]
      exact Nat.mul_lt_mul_of_pos_right hn (pow_pos (by norm_num) k)
  obtain ⟨hdvd, hlt, hek⟩ := hfac
  have hs : max (bitLength m - 53) (-1074 - e).toNat ≤ (-e).toNat := by
    have := bitLength_le hlt
    omega
  have hd : 2 ^ (max (bitLength m - 53) (-1074 - e).toNat) ∣ m :=
    dvd_trans (pow_dvd_pow 2 hs) hdvd
  have hov : (bitLength (m / 2 ^ (max (bitLength m - 53) (-1074 - e).toNat)) : Int)
      + (e + (max (bitLength m - 53) (-1074 - e).toNat : Nat)) ≤ 1024 := by
    generalize max (bitLength m - 53) (-1074 - e).toNat = s at hs hd ⊢
    have hq : m / 2 ^ s < 2 ^ (53 + (-e).toNat - s) := by
      apply Nat.div_lt_of_lt_mul
      rw [← pow_add]
      have : s + (53 + (-e).toNat - s) = 53 + (-e).toNat := by omega
      rw [this]
      exact hlt
    have := bitLength_le hq
    omega
  rw [roundDouble_of_dvd neg m e hm hd hov]
  exact finite_div_toRat neg m _ e hd

theorem toRat_finite_natAbs {neg : Bool} {m : Nat} {e : Int} {a : Nat}
    (h : (JSNumber.finite neg m e).toRat? = some (a : ℚ)) :
    (m : ℚ) * 2 ^ e = a ∧ (if neg then (-1 : ℚ) else 1) * a = a := by
  have hpos : (0 : ℚ) ≤ (m : ℚ) * 2 ^ e := by positivity
  have ha : (0 : ℚ) ≤ a := by positivity
  simp only [JSNumber.toRat?, Option.some.injEq] at h
  cases neg
  · simp at h ⊢; exact h
  · simp at h ⊢
    constructor <;> linarith

theorem JSNumber.mul_exact (x y : JSNumber) (a b : Nat)
    (hx : x.toRat? = some (a : ℚ)) (hy : y.toRat? = some (b : ℚ)) (hab : a * b < 2 ^ 53) :
    (x.mul y).toRat? = some ((a * b : Nat) : ℚ) := by
  cases x with
  | nan => simp [JSNumber.toRat?] at hx
  | infinity s => simp [JSNumber.toRat?] at hx
  | finite s1 m1 e1 =>
    cases y with
    | nan => simp [JSNumber.toRat?] at hy
    | infinity s => simp [JSNumber.toRat?] at hy
    | finite s2 m2 e2 =>
      obtain ⟨hx1, hx2⟩ := toRat_finite_natAbs hx
      obtain ⟨hy1, hy2⟩ := toRat_finite_natAbs hy
      have h2 : (2 : ℚ) ≠ 0 := by norm_num
      have hval : ((m1 * m2 : Nat) : ℚ) * 2 ^ (e1 + e2) = ((a * b : Nat) : ℚ) := by
        push_cast
        rw [zpow_add₀ h2, ← hx1, ← hy1]
        ring
      simp only [JSNumber.mul]
      rw [roundDouble_exact _ _ _ _ hval hab]
      simp only [JSNumber.toRat?, Option.some.injEq, hval]
      push_cast
      cases s1 <;> cases s2 <;> simp at hx2 hy2 ⊢
      · linear_combination (a : ℚ) * hy2
      · linear_combination (b : ℚ) * hx2

theorem JSNumber.add_exact (x y : JSNumber) (a b : Nat)
    (hx : x.toRat? = some (a : ℚ)) (hy : y.toRat? = some (b : ℚ)) (hab : a + b < 2 ^ 53) :
    (x.add y).toRat? = some ((a + b : Nat) : ℚ) := by
  cases x with
  | nan => simp [JSNumber.toRat?] at hx
  | infinity s => simp [JSNumber.toRat?] at hx
  | finite s1 m1 e1 =>
    cases y with
    | nan => simp [JSNumber.toRat?] at hy
    | infinity s => simp [JSNumber.toRat?] at hy
    | finite s2 m2 e2 =>
      have h2 : (2 : ℚ) ≠ 0 := by norm_num
      have hpow : (0 : ℚ) < 2 ^ (min e1 e2) := by positivity
      simp only [JSNumber.toRat?, Option.some.injEq] at hx hy
      -- the aligned integers carry the two values
      have hal : ∀ (s : Bool) (m : Nat) (e : Int), min e1 e2 ≤ e →
          (((if s then -1 else 1) * ((m * 2 ^ (e - min e1 e2).toNat : Nat) : Int) : Int) : ℚ)
              * 2 ^ (min e1 e2)
            = (if s then -1 else 1) * ((m : ℚ) * 2 ^ e) := by
        intro s m e hle
        have he : e = ((e - min e1 e2).toNat : Int) + min e1 e2 := by
          rw [Int.toNat_of_nonneg (by omega)]; ring
        conv_rhs => rw [he, zpow_add₀ h2, zpow_natCast]
        cases s <;> push_cast <;> ring
      have h1 := hal s1 m1 e1 (min_le_left _ _)
      have h2' := hal s2 m2 e2 (min_le_right _ _)
      rw [hx] at h1
      rw [hy] at h2'
      simp only [JSNumber.add]
      generalize ((if s1 then -1 else 1) * ((m1 * 2 ^ (e1 - min e1 e2).toNat : Nat) : Int) : Int)
        = A1 at h1 ⊢
      generalize ((if s2 then -1 else 1) * ((m2 * 2 ^ (e2 - min e1 e2).toNat : Nat) : Int) : Int)
        = A2 at h2' ⊢
      have hsum : ((A1 + A2 : Int) : ℚ) * 2 ^ (min e1 e2) = ((a + b : Nat) : ℚ) := by
        push_cast; rw [add_mul, h1, h2']
      by_cases hz : A1 + A2 = 0
      · simp only [hz, if_true, JSNumber.toRat?, Option.some.injEq]
        rw [hz] at hsum
        simp at hsum
        push_cast
        rw [← hsum]
        simp
      · simp only [hz, if_false]
        have hnn : (0 : ℚ) ≤ ((A1 + A2 : Int) : ℚ) := by
          by_contra hneg
          push_neg at hneg
          have : ((A1 + A2 : Int) : ℚ) * 2 ^ (min e1 e2) < 0 := mul_neg_of_neg_of_pos hneg hpow
          rw [hsum] at this
          have : (0 : ℚ) ≤ ((a + b : Nat) : ℚ) := by positivity
          linarith
        have hnn2 : 0 ≤ A1 + A2 := by exact_mod_cast hnn
        have habs : ((A1 + A2).natAbs : ℚ) = ((A1 + A2 : Int) : ℚ) := by
          rw [Nat.cast_natAbs, abs_of_nonneg hnn2]
        have hval : ((A1 + A2).natAbs : ℚ) * 2 ^ (min e1 e2) = ((a + b : Nat) : ℚ) := by
          rw [habs, hsum]
        rw [roundDouble_exact _ _ _ _ hval hab]
        have hd : decide (A1 + A2 < 0) = false := by simp; exact hnn2
        simp only [JSNumber.toRat?, hd, Option.some.injEq, hval]
        simp

theorem total_foldl_exact (calculateDiscount : JSNumber → JSNumber → JSNumber)
    (price qty : Item → Nat) :
    ∀ (items : List Item) (acc : JSNumber) (a : Nat),
      acc.toRat? = some (a : ℚ) →
      (∀ item ∈ items, (calculateDiscount item.price item.discount).toRat?
        = some (price item : ℚ)) →
      (∀ item ∈ items, item.quantity.toRat? = some (qty item : ℚ)) →
      a + (items.map (fun item => price item * qty item)).sum < 2 ^ 53 →
      (items.foldl
          (fun sum item => sum.add ((calculateDiscount item.price item.discount).mul item.quantity))
          acc).toRat?
        = some ((a + (items.map (fun item => price item * qty item)).sum : Nat) : ℚ) := by
  intro items
  induction items with
  | nil => intro acc a hacc _ _ _; simpa using hacc
  | cons item rest ih =>
    intro acc a hacc hp hq hsum
    simp only [List.map_cons, List.sum_cons] at hsum
    have hterm := JSNumber.mul_exact _ _ _ _ (hp item (List.mem_cons_self _ _))
      (hq item (List.mem_cons_self _ _)) (by omega)
    have hstep := JSNumber.add_exact _ _ _ _ hacc hterm (by omega)
    have := ih _ _ hstep (fun i hi => hp i (List.mem_cons_of_mem _ hi))
      (fun i hi => hq i (List.mem_cons_of_mem _ hi)) (by omega)
    simp only [List.foldl_cons, List.map_cons, List.sum_cons]
    rw [this, Nat.add_assoc]

theorem exactTotal_of_naturals (calculateDiscount : JSNumber → JSNumber → JSNumber)
    (price qty : Item → Nat) (items : List Item)
    (hp : ∀ item ∈ items, (calculateDiscount item.price item.discount).toRat?
      = some (price item : ℚ))
    (hq : ∀ item ∈ items, item.quantity.toRat? = some (qty item : ℚ)) :
    exactTotal items calculateDiscount
      = some (((items.map (fun item => price item * qty item)).sum : Nat) : ℚ) := by
  induction items with
  | nil => simp [exactTotal]
  | cons item rest ih =>
    have hrest := ih (fun i hi => hp i (List.mem_cons_of_mem _ hi))
      (fun i hi => hq i (List.mem_cons_of_mem _ hi))
    simp only [exactTotal, exactTerm, hp item (List.mem_cons_self _ _),
      hq item (List.mem_cons_self _ _), hrest, List.map_cons, List.sum_cons]
    push_cast
    rfl

/-! ## Total -/

/-- Claim C1, as stated, fails: with prices `2^53` and `1` (quantity `1`, no discount)
the computed total is `2^53` while the exact sum is `2^53 + 1`; with the prices written
`0.1` and `0.2` the computed total is `5404319552844596 / 2^54` (printed
`0.30000000000000004`) while the exact sum of the two factors is
`10808639105689191 / 2^55`. -/
theorem total_differs_from_exact_sum :
    total [sampleBulk, sampleUnit] noDiscount = .finite false 4503599627370496 1 ∧
      (total [sampleBulk, sampleUnit] noDiscount).toRat? = some 9007199254740992 ∧
      exactTotal [sampleBulk, sampleUnit] noDiscount = some 9007199254740993 ∧
      total [sampleTenth, sampleFifth] noDiscount = .finite false 5404319552844596 (-54) ∧
      (total [sampleTenth, sampleFifth] noDiscount).toRat?
        = some (5404319552844596 / 2 ^ 54) ∧
      exactTotal [sampleTenth, sampleFifth] noDiscount
        = some (10808639105689191 / 2 ^ 55) := by
  have h1 : total [sampleBulk, sampleUnit] noDiscount = .finite false 4503599627370496 1 := by
    decide
  have h2 : total [sampleTenth, sampleFifth] noDiscount
      = .finite false 5404319552844596 (-54) := by
    decide
  refine ⟨h1, ?_, ?_, h2, ?_, ?_⟩
  · rw [h1]; simp [JSNumber.toRat?]; norm_num
  · have hb : sampleBulk.price = .finite false 4503599627370496 1 := by decide
    have hu : sampleUnit.price = .finite false 1 0 := by decide
    have hbq : sampleBulk.quantity = .finite false 1 0 := by decide
    have huq : sampleUnit.quantity = .finite false 1 0 := by decide
    simp only [exactTotal, exactTerm, noDiscount, hb, hu, hbq, huq, JSNumber.toRat?]
    norm_num
  · rw [h2]; simp [JSNumber.toRat?]; norm_num
  · have hb : sampleTenth.price = .finite false 3602879701896397 (-55) := by decide
    have hu : sampleFifth.price = .finite false 3602879701896397 (-54) := by decide
    have hbq : sampleTenth.quantity = .finite false 1 0 := by decide
    have huq : sampleFifth.quantity = .finite false 1 0 := by decide
    simp only [exactTotal, exactTerm, noDiscount, hb, hu, hbq, huq, JSNumber.toRat?]
    norm_num

/-- Claim C1, amended: the cart total is the left-to-right running total in double
arithmetic, `0` for the empty list and `total(items) + calculateDiscount(price,
discount) * quantity` after one more item, each operation rounded to double; it equals
the exact sum of `calculateDiscount(price, discount) * quantity` over the items whenever
every discounted price and every quantity is a non-negative integer and that sum is
below `2^53`. -/
theorem total_running_and_exact (items : List Item)
    (calculateDiscount : JSNumber → JSNumber → JSNumber) :
    total [] calculateDiscount = JSNumber.zero ∧
      (∀ item, total (items ++ [item]) calculateDiscount
        = (total items calculateDiscount).add
            ((calculateDiscount item.price item.discount).mul item.quantity)) ∧
      (∀ price qty : Item → Nat,
        (∀ item ∈ items, (calculateDiscount item.price item.discount).toRat?
          = some (price item : ℚ)) →
        (∀ item ∈ items, item.quantity.toRat? = some (qty item : ℚ)) →
        (items.map (fun item => price item * qty item)).sum < 2 ^ 53 →
        (total items calculateDiscount).toRat? = exactTotal items calculateDiscount ∧
          exactTotal items calculateDiscount
            = some (((items.map (fun item => price item * qty item)).sum : Nat) : ℚ)) := by
  refine ⟨rfl, fun item => by simp [total], fun price qty hp hq hsum => ?_⟩
  have hx := exactTotal_of_naturals calculateDiscount price qty items hp hq
  have hz : JSNumber.zero.toRat? = some ((0 : Nat) : ℚ) := by simp [JSNumber.zero, JSNumber.toRat?]
  have ht := total_foldl_exact calculateDiscount price qty items JSNumber.zero 0 hz hp hq
    (by omega)
  refine ⟨?_, hx⟩
  rw [hx]
  simpa [total] using ht

theorem total_running_and_exact_witness :
    (total [sampleHoney, sampleChips] noDiscount).toRat?
        = exactTotal [sampleHoney, sampleChips] noDiscount ∧
      exactTotal [sampleHoney, sampleChips] noDiscount = some ((560 : Nat) : ℚ) :=
  (total_running_and_exact [sampleHoney, sampleChips] noDiscount).2.2
    (fun item => if item.id = 1 then 250 else 20)
    (fun item => if item.id = 1 then 2 else 3)
    (by
      have h1 : sampleHoney.price = .finite false 250 0 := by decide
      have h2 : sampleChips.price = .finite false 20 0 := by decide
      intro item hi
      simp only [List.mem_cons, List.mem_singleton, List.not_mem_nil, or_false] at hi
      rcases hi with rfl | rfl
      · simp only [noDiscount, h1, JSNumber.toRat?]
        norm_num [sampleHoney]
      · simp only [noDiscount, h2, JSNumber.toRat?]
        norm_num [sampleChips])
    (by
      have h1 : sampleHoney.quantity = .finite false 2 0 := by decide
      have h2 : sampleChips.quantity = .finite false 3 0 := by decide
      intro item hi
      simp only [List.mem_cons, List.mem_singleton, List.not_mem_nil, or_false] at hi
      rcases hi with rfl | rfl
      · simp only [h1, JSNumber.toRat?]
        norm_num [sampleHoney]
      · simp only [h2, JSNumber.toRat?]
        norm_num [sampleChips])
    (by decide)

/-! ## Pre-order toggle -/

/-- Claim C3, as stated, fails: with a packaged item in the list and the flag on,
`handlePreOrderToggle(false)` emits no notification and switches the flag off. -/
theorem handlePreOrderToggle_uncheck_not_rejected :
    hasPackagedProducts [sampleHoney, sampleChips] = true ∧
      (samplePreOrder none).ui.isPreOrder = true ∧
      (handlePreOrderToggle [sampleHoney, sampleChips] false (samplePreOrder none)).toasts
        = (samplePreOrder none).toasts ∧
      (handlePreOrderToggle [sampleHoney, sampleChips] false (samplePreOrder none)).ui.isPreOrder
        = false := by
  decide

/-- Claim C3, amended: when the list holds a packaged item, `handlePreOrderToggle(true)`
is rejected for every current flag (the warning is emitted, component state and storage
are untouched), while `handlePreOrderToggle(false)` emits nothing and sets the flag to
`false`. -/
theorem handlePreOrderToggle_packaged (items : List Item) (w : World)
    (h : hasPackagedProducts items = true) :
    ((handlePreOrderToggle items true w).toasts = w.toasts ++ [preOrderWarning] ∧
        (handlePreOrderToggle items true w).ui = w.ui ∧
        (handlePreOrderToggle items true w).storage = w.storage) ∧
      ((handlePreOrderToggle items false w).toasts = w.toasts ∧
        (handlePreOrderToggle items false w).ui.isPreOrder = false) := by
  simp [handlePreOrderToggle, h, toastWarning, preOrderWarning]

theorem handlePreOrderToggle_packaged_witness :
    hasPackagedProducts [sampleHoney, sampleChips] = true ∧
      (handlePreOrderToggle [sampleHoney, sampleChips] true (World.initial [])).toasts
        = [preOrderWarning] :=
  ⟨by decide,
    (handlePreOrderToggle_packaged [sampleHoney, sampleChips] (World.initial [])
      (by decide)).1.1⟩

/-- Claim C8: when the list holds no packaged item, `handlePreOrderToggle(checked)` is
accepted for either value: the flag equals `checked` afterwards, no notification is
emitted, and date, modal visibility and message keep their values. -/
theorem handlePreOrderToggle_accepted (items : List Item) (checked : Bool) (w : World)
    (h : hasPackagedProducts items = false) :
    (handlePreOrderToggle items checked w).ui.isPreOrder = checked ∧
      (handlePreOrderToggle items checked w).toasts = w.toasts ∧
      (handlePreOrderToggle items checked w).ui.deliveryDate = w.ui.deliveryDate ∧
      (handlePreOrderToggle items checked w).ui.isModalOpen = w.ui.isModalOpen ∧
      (handlePreOrderToggle items checked w).ui.checkoutMessage = w.ui.checkoutMessage := by
  simp [handlePreOrderToggle, h]

theorem handlePreOrderToggle_accepted_witness :
    hasPackagedProducts [sampleHoney] = false ∧
      (handlePreOrderToggle [sampleHoney] true (World.initial [])).ui.isPreOrder = true ∧
      (handlePreOrderToggle [sampleHoney] true (World.initial [])).toasts = [] :=
  ⟨by decide,
    (handlePreOrderToggle_accepted [sampleHoney] true (World.initial []) (by decide)).1,
    (handlePreOrderToggle_accepted [sampleHoney] true (World.initial []) (by decide)).2.1⟩

/-! ## Checkout -/

/-- Claim C4: with the pre-order flag on and no date selected, `handleCheckout` is
blocked for every item list: the missing-date error is emitted, and message, modal
visibility and the stored `cart` entry keep their values (nothing is written). -/
theorem handleCheckout_blocked_without_date (items : List Item) (w : World)
    (hp : w.ui.isPreOrder = true) (hd : w.ui.deliveryDate = none) :
    (handleCheckout items w).toasts = w.toasts ++ [errorToast missingDateText] ∧
      (handleCheckout items w).ui.checkoutMessage = w.ui.checkoutMessage ∧
      (handleCheckout items w).ui.isModalOpen = w.ui.isModalOpen ∧
      (handleCheckout items w).storage.getItem "cart" = w.storage.getItem "cart" ∧
      (handleCheckout items w).writes = w.writes := by
  simp [handleCheckout, hp, hd, toastError, errorToast]

theorem handleCheckout_blocked_without_date_witness :
    (samplePreOrder none).ui.isPreOrder = true ∧
      (samplePreOrder none).ui.deliveryDate = none ∧
      (handleCheckout [sampleHoney] (samplePreOrder none)).toasts
        = (samplePreOrder none).toasts ++ [errorToast missingDateText] ∧
      (handleCheckout [sampleHoney] (samplePreOrder none)).ui.isModalOpen
        = (samplePreOrder none).ui.isModalOpen :=
  ⟨by decide, by decide,
    (handleCheckout_blocked_without_date [sampleHoney] (samplePreOrder none)
      (by decide) (by decide)).1,
    (handleCheckout_blocked_without_date [sampleHoney] (samplePreOrder none)
      (by decide) (by decide)).2.2.1⟩

/-- Claim C5: when the validations pass (flag off, or flag on with a date selected and
no packaged item), `handleCheckout` opens the confirmation modal and the stored `cart`
entry is the text `[]`, whatever the storage held before. -/
theorem handleCheckout_succeeds (items : List Item) (w : World)
    (h : w.ui.isPreOrder = false ∨
      (w.ui.isPreOrder = true ∧ w.ui.deliveryDate ≠ none ∧
        hasPackagedProducts items = false)) :
    (handleCheckout items w).ui.isModalOpen = true ∧
      (handleCheckout items w).storage.getItem "cart" = some "[]" := by
  rcases h with h | ⟨hp, hd, hk⟩
  · simp [handleCheckout, h, localStorageSetItem, Storage.getItem_setItem,
      jsonStringifyArray_nil]
  · have hd2 : w.ui.deliveryDate.isNone = false := by
      cases hdd : w.ui.deliveryDate with
      | none => exact absurd hdd hd
      | some d => rfl
    simp [handleCheckout, hp, hd2, hk, localStorageSetItem, Storage.getItem_setItem,
      jsonStringifyArray_nil]

theorem handleCheckout_succeeds_witness :
    (handleCheckout [sampleHoney] (samplePreOrder (some sampleDateA))).ui.isModalOpen = true ∧
      (handleCheckout [sampleHoney] (samplePreOrder (some sampleDateA))).storage.getItem "cart"
        = some "[]" :=
  handleCheckout_succeeds [sampleHoney] (samplePreOrder (some sampleDateA))
    (Or.inr ⟨by decide, by decide, by decide⟩)

/-- Claim C6: `handleCheckout` aborts (an error notification is emitted, component
state and storage are untouched, nothing is written) exactly when the pre-order flag
is on and either no date is selected or the list holds a packaged item; in every other
state, and in particular whenever the flag is off, it proceeds: no notification, modal
open, `cart` written. -/
theorem handleCheckout_aborts_iff (items : List Item) (w : World) :
    ((∃ text, (handleCheckout items w).toasts = w.toasts ++ [errorToast text] ∧
          (handleCheckout items w).ui = w.ui ∧
          (handleCheckout items w).storage = w.storage ∧
          (handleCheckout items w).writes = w.writes)
        ↔ (w.ui.isPreOrder = true ∧
            (w.ui.deliveryDate = none ∨ hasPackagedProducts items = true))) ∧
      (¬ (w.ui.isPreOrder = true ∧
            (w.ui.deliveryDate = none ∨ hasPackagedProducts items = true)) →
        (handleCheckout items w).toasts = w.toasts ∧
          (handleCheckout items w).ui.isModalOpen = true ∧
          (handleCheckout items w).writes = w.writes ++ [("cart", "[]")]) ∧
      (w.ui.isPreOrder = false →
        (handleCheckout items w).toasts = w.toasts ∧
          (handleCheckout items w).ui.isModalOpen = true ∧
          (handleCheckout items w).writes = w.writes ++ [("cart", "[]")]) := by
  cases hp : w.ui.isPreOrder <;> cases hd : w.ui.deliveryDate <;>
    cases hk : hasPackagedProducts items <;>
    simp [handleCheckout, hp, hd, hk, toastError, errorToast, localStorageSetItem,
      jsonStringifyArray_nil]

theorem handleCheckout_aborts_iff_witness :
    (World.initial []).ui.isPreOrder = false ∧
      (handleCheckout [sampleHoney, sampleChips] (World.initial [])).toasts = [] ∧
      (handleCheckout [sampleHoney, sampleChips] (World.initial [])).ui.isModalOpen = true ∧
      (handleCheckout [sampleHoney, sampleChips] (World.initial [])).writes
        = [("cart", "[]")] :=
  ⟨by decide,
    (handleCheckout_aborts_iff [sampleHoney, sampleChips] (World.initial [])).2.2 (by decide)⟩

/-- Claim C7 fails on the code: two successful pre-order checkouts whose dates render
differently set the same confirmation message, the fixed text in which the
`deliveryDate.toLocaleDateString()` placeholder stands unevaluated, and the rendering
of the chosen date does not occur in it. -/
theorem handleCheckout_preorder_message_ignores_date :
    sampleDateA.toLocaleDateString = "1/15/2025" ∧
      sampleDateB.toLocaleDateString = "2/20/2025" ∧
      (handleCheckout [sampleHoney] (samplePreOrder (some sampleDateA))).ui.isModalOpen
        = true ∧
      (handleCheckout [sampleHoney] (samplePreOrder (some sampleDateB))).ui.isModalOpen
        = true ∧
      (handleCheckout [sampleHoney] (samplePreOrder (some sampleDateA))).ui.checkoutMessage
        = preOrderMessageText ∧
      (handleCheckout [sampleHoney] (samplePreOrder (some sampleDateB))).ui.checkoutMessage
        = preOrderMessageText ∧
      ¬ (sampleDateA.toLocaleDateString.toList
          <:+: (handleCheckout [sampleHoney]
                (samplePreOrder (some sampleDateA))).ui.checkoutMessage.toList) := by
  refine ⟨by decide, by decide, by decide, by decide, by decide, by decide, ?_⟩
  intro h
  have hmem : '1' ∈ (handleCheckout [sampleHoney]
      (samplePreOrder (some sampleDateA))).ui.checkoutMessage.toList :=
    h.subset (by decide)
  revert hmem
  decide

/-! ## Label and eligibility -/

theorem hasPackagedProducts_iff (items : List Item) :
    hasPackagedProducts items = true ↔ ∃ item ∈ items, item.type = "packaged" := by
  simp [hasPackagedProducts, List.any_eq_true]

theorem itemTypeLabel_eq_packagedLabel_iff (item : Item) :
    itemTypeLabel item = packagedLabel ↔ item.type ≠ "natural" := by
  unfold itemTypeLabel packagedLabel
  by_cases h : item.type = "natural"
  · simp [h]
  · simp [h]

theorem toggleRejected_true_iff (items : List Item) (w : World) :
    ToggleRejected items true w ↔ hasPackagedProducts items = true := by
  cases hk : hasPackagedProducts items <;>
    simp [ToggleRejected, handlePreOrderToggle, hk, toastWarning, preOrderWarning]

/-- Claim C10, as stated, fails: an item tagged `frozen` is shown with the `Packaged`
label, yet the list counts as free of packaged items and turning pre-order on is
accepted. -/
theorem packaged_label_without_rejection :
    hasNaturalProducts [sampleHoney, sampleFrozen] = true ∧
      (∃ item ∈ [sampleHoney, sampleFrozen], itemTypeLabel item = packagedLabel) ∧
      ¬ ToggleRejected [sampleHoney, sampleFrozen] true (World.initial []) ∧
      (handlePreOrderToggle [sampleHoney, sampleFrozen] true (World.initial [])).toasts = [] ∧
      (handlePreOrderToggle [sampleHoney, sampleFrozen] true (World.initial [])).ui.isPreOrder
        = true := by
  refine ⟨by decide, ⟨sampleFrozen, by simp, by decide⟩, by decide, by decide, by decide⟩

/-- Claim C10, amended: for arbitrary type strings, a rejected switch-on implies that
some item is shown with the `Packaged` label; when every item is tagged `natural` or
`packaged`, switching pre-order on is rejected exactly when some item is shown with
the `Packaged` label. -/
theorem toggle_rejected_iff_packaged_label (items : List Item) (w : World) :
    (ToggleRejected items true w → ∃ item ∈ items, itemTypeLabel item = packagedLabel) ∧
      ((∀ item ∈ items, item.type = "natural" ∨ item.type = "packaged") →
        (ToggleRejected items true w ↔
          ∃ item ∈ items, itemTypeLabel item = packagedLabel)) := by
  have hfwd : ToggleRejected items true w →
      ∃ item ∈ items, itemTypeLabel item = packagedLabel := by
    intro hr
    obtain ⟨item, hmem, hty⟩ :=
      (hasPackagedProducts_iff items).1 ((toggleRejected_true_iff items w).1 hr)
    refine ⟨item, hmem, (itemTypeLabel_eq_packagedLabel_iff item).2 ?_⟩
    rw [hty]
    decide
  refine ⟨hfwd, fun hall => ⟨hfwd, ?_⟩⟩
  rintro ⟨item, hmem, hlab⟩
  have hne := (itemTypeLabel_eq_packagedLabel_iff item).1 hlab
  rcases hall item hmem with hnat | hpk
  · exact absurd hnat hne
  · exact (toggleRejected_true_iff items w).2
      ((hasPackagedProducts_iff items).2 ⟨item, hmem, hpk⟩)

theorem toggle_rejected_iff_packaged_label_witness :
    (∀ item ∈ [sampleHoney, sampleChips], item.type = "natural" ∨ item.type = "packaged") ∧
      (ToggleRejected [sampleHoney, sampleChips] true (World.initial []) ↔
        ∃ item ∈ [sampleHoney, sampleChips], itemTypeLabel item = packagedLabel) :=
  ⟨by decide,
    (toggle_rejected_iff_packaged_label [sampleHoney, sampleChips] (World.initial [])).2
      (by decide)⟩

/-! ## Reachable states -/

theorem step_keeps_flag_sound (items : List Item) (w : World) (e : Event)
    (hinv : w.ui.isPreOrder = true → hasPackagedProducts items = false) :
    (step items w e).ui.isPreOrder = true → hasPackagedProducts items = false := by
  cases e with
  | toggle checked =>
    cases hk : hasPackagedProducts items
    · intro _; rfl
    · cases checked
      · simp [step, handlePreOrderToggle]
      · simpa [step, handlePreOrderToggle, hk, toastWarning] using hinv
  | selectDate date => simpa [step, setDeliveryDate] using hinv
  | checkout =>
    cases hp : w.ui.isPreOrder
    · simp [step, handleCheckout, hp, localStorageSetItem]
    · intro _; exact hinv hp
  | close => simpa [step, closeModal] using hinv
  | reloaded => simp [step, remount, CartState.initial]

theorem step_never_reports_packaged (items : List Item) (w : World) (e : Event)
    (hinv : w.ui.isPreOrder = true → hasPackagedProducts items = false)
    (hlog : ∀ t ∈ w.toasts, t.text ≠ packagedErrorText) :
    ∀ t ∈ (step items w e).toasts, t.text ≠ packagedErrorText := by
  have hwarn : preOrderWarningText ≠ packagedErrorText := by decide
  have hdate : missingDateText ≠ packagedErrorText := by decide
  cases e with
  | toggle checked =>
    intro t ht
    by_cases hc : (checked && hasPackagedProducts items) = true
    · simp only [step, handlePreOrderToggle, hc, if_true, toastWarning,
        List.mem_append, List.mem_singleton] at ht
      rcases ht with ht | rfl
      · exact hlog t ht
      · exact hwarn
    · simp only [step, handlePreOrderToggle, hc] at ht
      exact hlog t ht
  | selectDate date => simpa [step, setDeliveryDate] using hlog
  | checkout =>
    intro t ht
    cases hp : w.ui.isPreOrder
    · simp only [step, handleCheckout, hp, localStorageSetItem] at ht
      exact hlog t (by simpa using ht)
    · have hk := hinv hp
      cases hd : w.ui.deliveryDate with
      | none =>
        simp only [step, handleCheckout, hp, hd, Option.isNone_none, if_true, toastError,
          List.mem_append, List.mem_singleton] at ht
        rcases ht with ht | rfl
        · exact hlog t ht
        · exact hdate
      | some d =>
        simp only [step, handleCheckout, hp, hd, hk, localStorageSetItem] at ht
        exact hlog t (by simpa using ht)
  | close => simpa [step, closeModal] using hlog
  | reloaded => simpa [step, remount] using hlog

/-- Claim C2, as stated, fails: pre-order is switched on over a list of natural
products, then the parent supplies a list with a packaged item; the flag is still on. -/
theorem preorder_flag_survives_list_change :
    hasNaturalProducts [sampleHoney] = true ∧
      ReachableWith anyList [sampleHoney, sampleChips]
        (step [sampleHoney] (World.initial []) (.toggle true)) ∧
      (step [sampleHoney] (World.initial []) (.toggle true)).ui.isPreOrder = true ∧
      hasPackagedProducts [sampleHoney, sampleChips] = true := by
  refine ⟨by decide, ?_, by decide, by decide⟩
  exact ReachableWith.props _
    (ReachableWith.step (.toggle true) (ReachableWith.init [sampleHoney] [])) trivial

/-- Claim C2, amended: in every state reachable from the initial component state by
toggles, date selections, checkouts, modal closes, reloads and parent-supplied list
changes that bring no packaged item while the flag is on, the pre-order flag is on only
when the current list holds no packaged item. -/
theorem preorder_flag_sound_with_list_changes (items : List Item) (w : World)
    (h : ReachableWith keepsEligibility items w) :
    w.ui.isPreOrder = true → hasPackagedProducts items = false := by
  induction h with
  | init items storage => simp [World.initial, CartState.initial]
  | step e _ ih => exact step_keeps_flag_sound _ _ e ih
  | props items' _ hallowed _ => exact hallowed

theorem preorder_flag_sound_with_list_changes_witness :
    (step [sampleHoney] (World.initial []) (.toggle true)).ui.isPreOrder = true ∧
      hasPackagedProducts [sampleHoney, sampleFrozen] = false :=
  ⟨by decide,
    preorder_flag_sound_with_list_changes [sampleHoney, sampleFrozen]
      (step [sampleHoney] (World.initial []) (.toggle true))
      (ReachableWith.props _
        (ReachableWith.step (.toggle true) (ReachableWith.init [sampleHoney] []))
        (fun _ => by decide))
      (by decide)⟩

/-- Claim C9: while the item list stays fixed, every state reachable from the initial
state by toggles, date selections, checkouts, modal closes and reloads has the
pre-order flag on only if the list holds no packaged item; hence the packaged-products
error of `handleCheckout` is never emitted, neither before that state nor by a
checkout from it. -/
theorem packaged_error_unreachable (items : List Item) (w : World)
    (h : Reachable items w) :
    (w.ui.isPreOrder = true → hasPackagedProducts items = false) ∧
      (∀ t ∈ w.toasts, t.text ≠ packagedErrorText) ∧
      (∀ t ∈ (handleCheckout items w).toasts, t.text ≠ packagedErrorText) := by
  have hboth : (w.ui.isPreOrder = true → hasPackagedProducts items = false) ∧
      (∀ t ∈ w.toasts, t.text ≠ packagedErrorText) := by
    induction h with
    | init storage => simp [World.initial, CartState.initial]
    | step e _ ih =>
      exact ⟨step_keeps_flag_sound _ _ e ih.1, step_never_reports_packaged _ _ e ih.1 ih.2⟩
  exact ⟨hboth.1, hboth.2, step_never_reports_packaged items w .checkout hboth.1 hboth.2⟩

theorem packaged_error_unreachable_witness :
    (run [sampleHoney] (World.initial [])
        [.toggle true, .checkout, .selectDate (some sampleDateA), .checkout]).toasts
        = [errorToast missingDateText] ∧
      (run [sampleHoney] (World.initial [])
        [.toggle true, .checkout, .selectDate (some sampleDateA), .checkout]).ui.isModalOpen
        = true ∧
      (∀ t ∈ (run [sampleHoney] (World.initial [])
          [.toggle true, .checkout, .selectDate (some sampleDateA), .checkout]).toasts,
        t.text ≠ packagedErrorText) :=
  ⟨by decide, by decide,
    (packaged_error_unreachable [sampleHoney]
      (run [sampleHoney] (World.initial [])
        [.toggle true, .checkout, .selectDate (some sampleDateA), .checkout])
      (Reachable.step .checkout
        (Reachable.step (.selectDate (some sampleDateA))
          (Reachable.step .checkout
            (Reachable.step (.toggle true) (Reachable.init [])))))).2.1⟩

end Cart
